import Mathlib

/-!
Verification of the HyP3 SDK job/batch core (`hyp3_sdk/jobs.py`, `hyp3_sdk/hyp3.py`)
against its natural-language specification.

The embedding is shallow:

* Python JSON-like values (the job records exchanged with the API) are modelled
  by the inductive `JVal`; Python dicts are association lists (`Dict`) compared
  up to key lookup, matching Python's order-insensitive dict equality.
* Timezone-aware `datetime` values are modelled by `DateTime`;
  `datetime.isoformat(timespec='seconds')` is `DateTime.isoformat`, and
  `dateutil.parser.parse` is modelled on the canonical ISO-8601
  second-precision grammar (the only form the claims quantify over) by
  `parse_date`.  Aware-datetime comparison is modelled by mapping to epoch
  seconds with the standard civil-from-days calendar algorithm.
* Raised Python exceptions become `Except PyErr` results; the distinct
  exception classes of `hyp3_sdk/exceptions.py` that the control flow
  distinguishes become `PyErr` constructors.
* Network and filesystem effects (`requests`, `download_file`, `mkdir`) are
  passed in as explicit function parameters; emitted warnings and issued HTTP
  requests are returned as explicit logs.
-/

/-- Model of a Python/JSON value as stored in a job record dict. -/
inductive JVal where
  | null
  | s (v : String)
  | b (v : Bool)
  | n (v : Int)
  | l (vs : List JVal)
  | d (kvs : List (String × JVal))

/-- A Python dict with string keys, as an association list. -/
abbrev Dict := List (String × JVal)

mutual

/-- Structural (Python `==`) equality test on `JVal`. -/
def JVal.beq : JVal → JVal → Bool
  | .null, .null => true
  | .s a, .s c => a == c
  | .b a, .b c => a == c
  | .n a, .n c => a == c
  | .l as, .l cs => JVal.beqList as cs
  | .d as, .d cs => JVal.beqPairs as cs
  | _, _ => false

/-- Elementwise `JVal.beq` on lists. -/
def JVal.beqList : List JVal → List JVal → Bool
  | [], [] => true
  | a :: as, c :: cs => JVal.beq a c && JVal.beqList as cs
  | _, _ => false

/-- Elementwise `JVal.beq` on key-value pair lists. -/
def JVal.beqPairs : List (String × JVal) → List (String × JVal) → Bool
  | [], [] => true
  | (k, a) :: as, (k', c) :: cs => k == k' && JVal.beq a c && JVal.beqPairs as cs
  | _, _ => false

end

/-- Python truthiness of a `JVal` (used by `from_dict`'s
`if input_dict.get('expiration_time')`). -/
def JVal.truthy : JVal → Bool
  | .null => false
  | .s v => !(v == "")
  | .b v => v
  | .n v => !(v == 0)
  | .l vs => !vs.isEmpty
  | .d kvs => !kvs.isEmpty

/-- Python dict equality: the two association lists agree on every key that
either of them binds (first binding wins, as for well-formed dicts the keys
are unique). -/
def dictEqv (a c : Dict) : Bool :=
  a.all (fun kv => match List.lookup kv.1 c with
    | some v => JVal.beq v kv.2
    | none => false) &&
  c.all (fun kv => match List.lookup kv.1 a with
    | some v => JVal.beq v kv.2
    | none => false)

/-- Model of a timezone-aware `datetime.datetime` at second precision:
`tzNonneg` is the sign of the UTC offset (`true` for `+`). -/
structure DateTime where
  year : Nat
  month : Nat
  day : Nat
  hour : Nat
  minute : Nat
  second : Nat
  tzNonneg : Bool
  tzHour : Nat
  tzMin : Nat
deriving DecidableEq

/-- Decimal digit character for `n < 10`. -/
def toDigitChar (n : Nat) : Char := Char.ofNat (48 + n)

/-- Numeric value of a decimal digit character. -/
def toDigit (c : Char) : Option Nat :=
  if c.isDigit then some (c.toNat - 48) else none

/-- Two-digit zero-padded decimal rendering (`'%02d'`). -/
def pad2 (n : Nat) : List Char := [toDigitChar (n / 10 % 10), toDigitChar (n % 10)]

/-- Four-digit zero-padded decimal rendering (`'%04d'`). -/
def pad4 (n : Nat) : List Char :=
  [toDigitChar (n / 1000 % 10), toDigitChar (n / 100 % 10),
   toDigitChar (n / 10 % 10), toDigitChar (n % 10)]

/-- Model of `datetime.isoformat(timespec='seconds')` on an aware datetime:
`YYYY-MM-DDTHH:MM:SS±HH:MM`. -/
def DateTime.isoformat (dt : DateTime) : String :=
  String.mk (pad4 dt.year ++ '-' :: pad2 dt.month ++ '-' :: pad2 dt.day ++
    'T' :: pad2 dt.hour ++ ':' :: pad2 dt.minute ++ ':' :: pad2 dt.second ++
    (if dt.tzNonneg then '+' else '-') :: pad2 dt.tzHour ++ ':' :: pad2 dt.tzMin)

/-- Numeric value of a decimal digit character. -/
def digitVal (c : Char) : Nat := c.toNat - 48

/-- Parse of a two-digit zero-padded decimal component. -/
def parse2 (a c : Char) : Option Nat :=
  if a.isDigit ∧ c.isDigit then some (digitVal a * 10 + digitVal c) else none

/-- Parse of a four-digit zero-padded decimal component. -/
def parse4 (a c e f : Char) : Option Nat :=
  if a.isDigit ∧ c.isDigit ∧ e.isDigit ∧ f.isDigit then
    some (((digitVal a * 10 + digitVal c) * 10 + digitVal e) * 10 + digitVal f)
  else none

/-- Parse of the UTC-offset sign. -/
def parseSign (sg : Char) : Option Bool :=
  if sg = '+' then some true else if sg = '-' then some false else none

/-- Field assembly for `parse_date`: parses the digit groups of the canonical
ISO-8601 grammar, validates their ranges and builds the datetime. -/
def parseFields (y1 y2 y3 y4 m1 m2 d1 d2 h1 h2 n1 n2 s1 s2 sg t1 t2 u1 u2 : Char) :
    Option DateTime :=
  match parse4 y1 y2 y3 y4, parse2 m1 m2, parse2 d1 d2, parse2 h1 h2, parse2 n1 n2,
      parse2 s1 s2, parseSign sg, parse2 t1 t2, parse2 u1 u2 with
  | some year, some month, some day, some hour, some minute, some second,
      some sign, some tzh, some tzm =>
    if 1 ≤ month ∧ month ≤ 12 ∧ 1 ≤ day ∧ day ≤ 31 ∧ hour ≤ 23 ∧
        minute ≤ 59 ∧ second ≤ 59 ∧ tzh ≤ 23 ∧ tzm ≤ 59 then
      some (DateTime.mk year month day hour minute second sign tzh tzm)
    else
      none
  | _, _, _, _, _, _, _, _, _ => none

/-- Model of `dateutil.parser.parse` restricted to the canonical ISO-8601
second-precision offset-carrying grammar, the timestamp form the spec's
well-formed records carry.  Out-of-range components and any other shape are
rejected (`none` models the raised `ValueError`/`TypeError`). -/
def parse_date (str : String) : Option DateTime :=
  match str.data with
  | [y1, y2, y3, y4, q1, m1, m2, q2, d1, d2, q3,
     h1, h2, q4, n1, n2, q5, s1, s2, sg, t1, t2, q6, u1, u2] =>
    if q1 = '-' ∧ q2 = '-' ∧ q3 = 'T' ∧ q4 = ':' ∧ q5 = ':' ∧ q6 = ':' then
      parseFields y1 y2 y3 y4 m1 m2 d1 d2 h1 h2 n1 n2 s1 s2 sg t1 t2 u1 u2
    else none
  | _ => none

/-- Absolute instant of an aware datetime, in seconds since the Unix epoch
(days counted by the standard civil-calendar algorithm, UTC offset
subtracted); models Python's aware-datetime comparison. -/
def DateTime.toEpochSec (dt : DateTime) : Int :=
  let y' : Nat := if dt.month ≤ 2 then dt.year - 1 else dt.year
  let era : Nat := y' / 400
  let yoe : Nat := y' % 400
  let mp : Nat := (dt.month + 9) % 12
  let doy : Nat := (153 * mp + 2) / 5 + (dt.day - 1)
  let doe : Nat := yoe * 365 + yoe / 4 - yoe / 100 + doy
  let days : Int := (era * 146097 + doe : Nat) - 719468
  let tod : Int := (dt.hour * 3600 + dt.minute * 60 + dt.second : Nat)
  let off : Int := (dt.tzHour * 3600 + dt.tzMin * 60 : Nat)
  days * 86400 + tod + (if dt.tzNonneg then -off else off)

/-- Exceptions distinguished by the SDK's control flow:
`HyP3SDKError` (and its subclass `HyP3Error`, raised by `watch` on timeout),
`NotADirectoryError` and `TypeError` (both not SDK errors, hence not caught
by the SDK's `except HyP3SDKError` handlers). -/
inductive PyErr where
  | hyp3SDKError (msg : String)
  | hyp3Error (msg : String)
  | notADirectoryError (msg : String)
  | typeError (msg : String)
deriving DecidableEq

/-- True for the errors caught by `except HyP3SDKError` handlers
(`HyP3Error` subclasses `HyP3SDKError` in `exceptions.py`). -/
def PyErr.isSDKError : PyErr → Bool
  | .hyp3SDKError _ => true
  | .hyp3Error _ => true
  | .notADirectoryError _ => false
  | .typeError _ => false

instance {α : Type} [DecidableEq α] : DecidableEq (Except PyErr α) := fun a c =>
  match a, c with
  | .ok x, .ok y =>
    if h : x = y then .isTrue (by rw [h]) else .isFalse (by simp [h])
  | .error x, .error y =>
    if h : x = y then .isTrue (by rw [h]) else .isFalse (by simp [h])
  | .ok _, .error _ => .isFalse (by simp)
  | .error _, .ok _ => .isFalse (by simp)

/-- The `Job` value object of `hyp3_sdk/jobs.py`.  The five required
constructor parameters are kept at their annotated types; the optional ones
default to `None` (`Option`).  Fields are listed in `__init__` assignment
order (`job_id` first), which is the `vars(self)` iteration order used by
`to_dict`. -/
structure Job where
  job_id : String
  job_type : String
  request_time : DateTime
  status_code : String
  user_id : String
  name : Option JVal
  job_parameters : Option JVal
  files : Option JVal
  logs : Option JVal
  browse_images : Option JVal
  thumbnail_images : Option JVal
  expiration_time : Option DateTime

/-- Job.succeeded. -/
def Job.succeeded (j : Job) : Bool := j.status_code == "SUCCEEDED"

/-- Job.failed. -/
def Job.failed (j : Job) : Bool := j.status_code == "FAILED"

/-- Job.complete. -/
def Job.complete (j : Job) : Bool := j.succeeded || j.failed

/-- Job.running. -/
def Job.running (j : Job) : Bool := !j.complete

/-- Job.__str__: `HyP3 {job_type} job {job_id}`. -/
def Job.str (j : Job) : String := "HyP3 " ++ j.job_type ++ " job " ++ j.job_id

/-- Job.expired: `datetime.now(tz.UTC) >= self.expiration_time`, where a
`None` expiration time makes the comparison raise `TypeError`, turned into
`HyP3SDKError('Only SUCCEEDED jobs have an expiration time')`.  The current
time is the explicit parameter `now`. -/
def Job.expired (j : Job) (now : DateTime) : Except PyErr Bool :=
  match j.expiration_time with
  | some exp => .ok (decide (exp.toEpochSec ≤ now.toEpochSec))
  | none => .error (.hyp3SDKError "Only SUCCEEDED jobs have an expiration time")

/-- Fetch of an optional field in `Job.from_dict`: Python's
`input_dict.get(key)` yields `None` both for a missing key and for an
explicit `null` value. -/
def optGet (d : Dict) (k : String) : Option JVal :=
  match List.lookup k d with
  | some JVal.null => none
  | some v => some v
  | none => none

/-- Fetch of a required string field (`input_dict[key]`); a missing key or a
non-string value makes the surrounding parse raise. -/
def reqString (d : Dict) (k : String) : Option String :=
  match List.lookup k d with
  | some (JVal.s v) => some v
  | _ => none

/-- Job.from_dict.  `none` models any exception raised while deserializing
(missing required key, unparsable timestamp). -/
def Job.from_dict (d : Dict) : Option Job := do
  let expiration_time ←
    match List.lookup "expiration_time" d with
    | some v =>
      if v.truthy then
        match v with
        | JVal.s str => (parse_date str).map (fun e => some e)
        | _ => none
      else some none
    | none => some none
  let job_type ← reqString d "job_type"
  let job_id ← reqString d "job_id"
  let request_time ← (reqString d "request_time").bind parse_date
  let status_code ← reqString d "status_code"
  let user_id ← reqString d "user_id"
  some (Job.mk job_id job_type request_time status_code user_id
    (optGet d "name") (optGet d "job_parameters") (optGet d "files")
    (optGet d "logs") (optGet d "browse_images") (optGet d "thumbnail_images")
    expiration_time)

/-- Emission of one optional attribute by `Job.to_dict` (`if value is not
None: job_dict[key] = value`). -/
def optEntry (k : String) (o : Option JVal) : Dict :=
  match o with
  | some v => [(k, v)]
  | none => []

/-- Job.to_dict.  For `for_resubmit = true` only the keys in
`Job._attributes_for_resubmit = {'name', 'job_parameters', 'job_type'}` are
processed; otherwise all of `vars(self)` in assignment order.  `None`-valued
attributes are omitted and `datetime` values are rendered with
`isoformat(timespec='seconds')`. -/
def Job.to_dict (j : Job) (for_resubmit : Bool) : Dict :=
  if for_resubmit then
    optEntry "name" j.name ++ optEntry "job_parameters" j.job_parameters ++
      [("job_type", JVal.s j.job_type)]
  else
    [("job_id", JVal.s j.job_id), ("job_type", JVal.s j.job_type),
     ("request_time", JVal.s j.request_time.isoformat),
     ("status_code", JVal.s j.status_code), ("user_id", JVal.s j.user_id)] ++
    optEntry "name" j.name ++ optEntry "job_parameters" j.job_parameters ++
    optEntry "files" j.files ++ optEntry "logs" j.logs ++
    optEntry "browse_images" j.browse_images ++
    optEntry "thumbnail_images" j.thumbnail_images ++
    (match j.expiration_time with
     | some e => [("expiration_time", JVal.s e.isoformat)]
     | none => [])

/-- The `Batch` collection of `hyp3_sdk/jobs.py`. -/
structure Batch where
  jobs : List Job

/-- Batch.__add__ on a `Batch` operand: `Batch(self.jobs + other.jobs)`. -/
def Batch.add (a c : Batch) : Batch := Batch.mk (a.jobs ++ c.jobs)

/-- Batch.__add__ / __iadd__ on a `Job` operand: `self.jobs + [other]`. -/
def Batch.addJob (a : Batch) (j : Job) : Batch := Batch.mk (a.jobs ++ [j])

/-- Batch.complete: False as soon as one job is incomplete, else True. -/
def Batch.complete (b : Batch) : Bool := b.jobs.all (fun j => j.complete)

/-- Batch.succeeded. -/
def Batch.succeeded (b : Batch) : Bool := b.jobs.all (fun j => j.succeeded)

/-- The `Counter` of `Batch._count_statuses` read at one status code. -/
def Batch.countStatus (b : Batch) (code : String) : Nat :=
  (b.jobs.filter (fun j => j.status_code == code)).length

/-- Batch.__str__. -/
def Batch.str (b : Batch) : String :=
  toString b.jobs.length ++ " HyP3 Jobs: " ++
    toString (b.countStatus "SUCCEEDED") ++ " succeeded, " ++
    toString (b.countStatus "FAILED") ++ " failed, " ++
    toString (b.countStatus "RUNNING") ++ " running, " ++
    toString (b.countStatus "PENDING") ++ " pending."

/-- Batch.any_expired's loop: the `except HyP3SDKError: continue` handler
skips jobs whose `expired()` raised an SDK error; any other exception would
propagate. -/
def anyExpiredAux (now : DateTime) : List Job → Except PyErr Bool
  | [] => .ok false
  | j :: rest =>
    match j.expired now with
    | .ok true => .ok true
    | .ok false => anyExpiredAux now rest
    | .error e => if e.isSDKError then anyExpiredAux now rest else .error e

/-- Batch.any_expired. -/
def Batch.any_expired (b : Batch) (now : DateTime) : Except PyErr Bool :=
  anyExpiredAux now b.jobs

/-- Batch.filter_jobs's loop.  For a succeeded job with the `succeeded` flag
set, `if include_expired or not job.expired()` short-circuits: `expired()`
is evaluated (and its exception propagates) only when `include_expired` is
false. -/
def filterJobsAux (succ run fail inc : Bool) (now : DateTime) :
    List Job → Except PyErr (List Job)
  | [] => .ok []
  | j :: rest =>
    if j.succeeded && succ then
      if inc then (filterJobsAux succ run fail inc now rest).map (fun js => j :: js)
      else
        match j.expired now with
        | .error e => .error e
        | .ok ex =>
          if ex then filterJobsAux succ run fail inc now rest
          else (filterJobsAux succ run fail inc now rest).map (fun js => j :: js)
    else if j.running && run then
      (filterJobsAux succ run fail inc now rest).map (fun js => j :: js)
    else if j.failed && fail then
      (filterJobsAux succ run fail inc now rest).map (fun js => j :: js)
    else
      filterJobsAux succ run fail inc now rest

/-- Batch.filter_jobs (parameters in source order, defaults
`succeeded=True, running=True, failed=False, include_expired=True`). -/
def Batch.filter_jobs (b : Batch) (succeeded running failed include_expired : Bool)
    (now : DateTime) : Except PyErr Batch :=
  (filterJobsAux succeeded running failed include_expired now b.jobs).map Batch.mk

/-- Message text of an exception (its `str(e)`). -/
def PyErr.message : PyErr → String
  | .hyp3SDKError m => m
  | .hyp3Error m => m
  | .notADirectoryError m => m
  | .typeError m => m

/-- The per-file loop of Job.download_files: each entry of `files` is a dict
with `url` and `filename` strings; `download_file` (modelled by the success
predicate `dl`) writes `location/filename`, and an `HTTPError` is re-raised
as `HyP3SDKError('Unable to download file: ...')`.  A malformed file entry
(never produced by the API) is modelled as a `TypeError`. -/
def downloadFilesAux (dl : String → Bool) (location : String) :
    List JVal → Except PyErr (List String)
  | [] => .ok []
  | entry :: rest =>
    match entry with
    | JVal.d kvs =>
      match List.lookup "url" kvs, List.lookup "filename" kvs with
      | some (JVal.s url), some (JVal.s fn) =>
        if dl url then
          (downloadFilesAux dl location rest).map (fun ps => (location ++ "/" ++ fn) :: ps)
        else
          .error (.hyp3SDKError ("Unable to download file: " ++ url))
      | _, _ => .error (.typeError "file record is not a dict with url and filename")
    | _ => .error (.typeError "file record is not a dict with url and filename")

/-- Job.download_files.  `dl` is the download collaborator (true = the GET
succeeded), `locationIsDir` whether `location` already exists as a
directory, `create` the `create` flag.  Precondition failures are the
`HyP3SDKError`s of the source; a missing directory with `create=False` is
the (non-SDK) `NotADirectoryError`; a `None`/non-list `files` attribute is
modelled as a `TypeError`. -/
def Job.download_files (j : Job) (now : DateTime) (dl : String → Bool)
    (location : String) (locationIsDir create : Bool) : Except PyErr (List String) :=
  if !j.succeeded then
    .error (.hyp3SDKError ("Only succeeded jobs can be downloaded; job is " ++
      j.status_code ++ "."))
  else
    match j.expiration_time with
    | none => .error (.hyp3SDKError "Only SUCCEEDED jobs have an expiration time")
    | some exp =>
      if exp.toEpochSec ≤ now.toEpochSec then
        .error (.hyp3SDKError ("Expired jobs cannot be downloaded; job expired " ++
          exp.isoformat ++ "."))
      else if !create && !locationIsDir then
        .error (.notADirectoryError location)
      else
        match j.files with
        | some (JVal.l entries) => downloadFilesAux dl location entries
        | _ => .error (.typeError "files is not a list")

/-- Batch.download_files's loop: per-job results are concatenated; a job
failing with `HyP3SDKError` is caught, a warning naming the job is printed
(second component of the result) and the job is skipped; any other
exception propagates and aborts the loop. -/
def batchDownloadAux (now : DateTime) (dl : String → Bool) (location : String)
    (locationIsDir create : Bool) : List Job → (Except PyErr (List String)) × List String
  | [] => (.ok [], [])
  | j :: rest =>
    match j.download_files now dl location locationIsDir create with
    | .ok ps =>
      let r := batchDownloadAux now dl location locationIsDir create rest
      (r.1.map (fun qs => ps ++ qs), r.2)
    | .error e =>
      if e.isSDKError then
        let r := batchDownloadAux now dl location locationIsDir create rest
        (r.1, ("Warning: " ++ e.message ++ ". Skipping download for " ++ j.str ++ ".") :: r.2)
      else
        (.error e, [])

/-- Batch.download_files. -/
def Batch.download_files (b : Batch) (now : DateTime) (dl : String → Bool)
    (location : String) (locationIsDir create : Bool) :
    (Except PyErr (List String)) × List String :=
  batchDownloadAux now dl location locationIsDir create b.jobs

/-- The iteration bound of `HyP3._watch_batch` / `_watch_job`:
`math.ceil(timeout / interval)` (exact ceiling division; for positive
integer arguments Python's float ceiling agrees). -/
def iterationsUntilTimeout (timeout interval : Nat) : Nat :=
  (timeout + interval - 1) / interval

/-- The polling loop shared by `_watch_job` and `_watch_batch`: `refresh i`
is the state returned by the i-th `self.refresh` call; the second component
counts the refresh calls issued.  On fuel exhaustion the source raises
`HyP3Error(f'Timeout occurred while waiting for {x}')` where `x` is the
last refreshed value (the argument itself if no iteration ran). -/
def watchAux {α : Type} (refresh : Nat → α) (isComplete : α → Bool) (descr : α → String) :
    α → Nat → Nat → (Except PyErr α) × Nat
  | cur, i, 0 => (.error (.hyp3Error ("Timeout occurred while waiting for " ++ descr cur)), i)
  | _, i, fuel + 1 =>
    let next := refresh i
    if isComplete next then (.ok next, i + 1)
    else watchAux refresh isComplete descr next (i + 1) fuel

/-- HyP3._watch_job. -/
def HyP3.watch_job (refresh : Nat → Job) (job : Job) (timeout interval : Nat) :
    (Except PyErr Job) × Nat :=
  watchAux refresh Job.complete Job.str job 0 (iterationsUntilTimeout timeout interval)

/-- HyP3._watch_batch (the progress-bar bookkeeping is effect-free; the
completion test is `batch.complete()`). -/
def HyP3.watch_batch (refresh : Nat → Batch) (batch : Batch) (timeout interval : Nat) :
    (Except PyErr Batch) × Nat :=
  watchAux refresh Batch.complete Batch.str batch 0 (iterationsUntilTimeout timeout interval)

/-- The single-Job case of HyP3.update_jobs: one PATCH to `/jobs/{job_id}`
(`server` maps the job id to the response record, or to the error raised by
`_raise_for_hyp3_status`), then `Job.from_dict` on the response. -/
def updateJob (server : String → Except PyErr Dict) (j : Job) : Except PyErr Job :=
  match server j.job_id with
  | .error e => .error e
  | .ok d =>
    match Job.from_dict d with
    | some j' => .ok j'
    | none => .error (.typeError "malformed job record in PATCH response")

/-- The Batch loop of HyP3.update_jobs: `batch += self.update_jobs(job)` per
member in order; the second component logs the job ids PATCHed, in order of
request.  The first error propagates immediately. -/
def updateJobsAux (server : String → Except PyErr Dict) :
    List Job → Batch → List String → (Except PyErr Batch) × List String
  | [], acc, log => (.ok acc, log)
  | j :: rest, acc, log =>
    match updateJob server j with
    | .ok j' => updateJobsAux server rest (acc.addJob j') (log ++ [j.job_id])
    | .error e => (.error e, log ++ [j.job_id])

/-- HyP3.update_jobs on a Batch. -/
def HyP3.update_jobs (server : String → Except PyErr Dict) (b : Batch) :
    (Except PyErr Batch) × List String :=
  updateJobsAux server b.jobs (Batch.mk []) []

/-- HyP3.prepare_autorift_job: the prepared job dictionary for an autoRIFT
job; the name, when given, is stored unexamined. -/
def HyP3.prepare_autorift_job (granule1 granule2 : String) (name : Option String) : Dict :=
  [("job_parameters", JVal.d [("granules", JVal.l [JVal.s granule1, JVal.s granule2])]),
   ("job_type", JVal.s "AUTORIFT")] ++
  (match name with
   | some nm => [("name", JVal.s nm)]
   | none => [])

/-- The client-side portion of HyP3.submit_prepared_jobs before the network
call: the POST body `{'jobs': prepared_jobs}` is built directly from the
prepared dictionaries; no validation of any kind is performed on them. -/
def HyP3.submit_payload (prepared_jobs : List Dict) : Dict :=
  [("jobs", JVal.l (prepared_jobs.map JVal.d))]

/-- Well-formed ranges for a second-precision aware datetime as carried by a
well-formed job record (four-digit year, calendar-range components). -/
def DateTime.wf (dt : DateTime) : Prop :=
  dt.year ≤ 9999 ∧ 1 ≤ dt.month ∧ dt.month ≤ 12 ∧ 1 ≤ dt.day ∧ dt.day ≤ 31 ∧
    dt.hour ≤ 23 ∧ dt.minute ≤ 59 ∧ dt.second ≤ 59 ∧ dt.tzHour ≤ 23 ∧ dt.tzMin ≤ 59

instance (dt : DateTime) : Decidable dt.wf := by
  unfold DateTime.wf
  infer_instance

/-- The round trip of the spec's C5: deserialize a record and serialize it
back, comparing with Python dict equality; false when `from_dict` fails. -/
def roundTrips (d : Dict) : Bool :=
  match Job.from_dict d with
  | some j => dictEqv (j.to_dict false) d
  | none => false

/-- Concrete request time used by the witnesses. -/
def rtW : DateTime := DateTime.mk 2020 9 22 23 55 10 true 0 0

/-- Concrete (past) expiration time used by the witnesses. -/
def edW : DateTime := DateTime.mk 2020 10 7 0 0 0 true 0 0

/-- Concrete (future) expiration time used by the witnesses. -/
def fuW : DateTime := DateTime.mk 2030 1 1 0 0 0 true 0 0

/-- Concrete "current" instant used by the witnesses. -/
def nowW : DateTime := DateTime.mk 2021 1 1 0 0 0 true 0 0

/-- A succeeded, unexpired job with one downloadable file. -/
def jobOkW : Job :=
  Job.mk "j1" "RTC_GAMMA" rtW "SUCCEEDED" "user" none none
    (some (JVal.l [JVal.d [("url", JVal.s "https://x/f1.zip"), ("filename", JVal.s "f1.zip")]]))
    none none none (some fuW)

/-- A still-running job (no expiration time). -/
def jobRunW : Job :=
  Job.mk "j2" "RTC_GAMMA" rtW "RUNNING" "user" none none none none none none none

/-- A succeeded job whose artifacts already expired at `nowW`. -/
def jobExpW : Job :=
  Job.mk "j3" "RTC_GAMMA" rtW "SUCCEEDED" "user" none none (some (JVal.l []))
    none none none (some edW)

/-- A succeeded job that (violating the data-model invariant) carries no
expiration time. -/
def jobBadW : Job :=
  Job.mk "j9" "RTC_GAMMA" rtW "SUCCEEDED" "user" none none none none none none none

/-- A download collaborator for which every GET succeeds. -/
def dlAllW (_ : String) : Bool := true

/-- A well-formed full job record used by the round-trip witness. -/
def recW : Dict :=
  [("job_id", JVal.s "j1"), ("job_type", JVal.s "RTC_GAMMA"),
   ("request_time", JVal.s rtW.isoformat), ("status_code", JVal.s "SUCCEEDED"),
   ("user_id", JVal.s "user"), ("name", JVal.s "myname"),
   ("job_parameters", JVal.d [("granules", JVal.l [JVal.s "g1"])]),
   ("files", JVal.l []), ("logs", JVal.l []), ("browse_images", JVal.l []),
   ("thumbnail_images", JVal.l []), ("expiration_time", JVal.s edW.isoformat)]

/-- The job `recW` deserializes to. -/
def jobRecW : Job :=
  Job.mk "j1" "RTC_GAMMA" rtW "SUCCEEDED" "user" (some (JVal.s "myname"))
    (some (JVal.d [("granules", JVal.l [JVal.s "g1"])])) (some (JVal.l []))
    (some (JVal.l [])) (some (JVal.l [])) (some (JVal.l [])) (some edW)

/-- A PATCH collaborator that always answers with the record `recW`. -/
def serverW (_ : String) : Except PyErr Dict := .ok recW

/-- A refresh schedule that reports the job running on the first poll and
succeeded from the second poll on. -/
def refreshW (i : Nat) : Job := if 1 ≤ i then jobOkW else jobRunW

mutual

theorem JVal.beq_refl : (v : JVal) → JVal.beq v v = true
  | .null => rfl
  | .s _ => by simp [JVal.beq]
  | .b _ => by simp [JVal.beq]
  | .n _ => by simp [JVal.beq]
  | .l as => by simp [JVal.beq, JVal.beqList_refl as]
  | .d as => by simp [JVal.beq, JVal.beqPairs_refl as]

theorem JVal.beqList_refl : (vs : List JVal) → JVal.beqList vs vs = true
  | [] => rfl
  | a :: as => by simp [JVal.beqList, JVal.beq_refl a, JVal.beqList_refl as]

theorem JVal.beqPairs_refl : (vs : List (String × JVal)) → JVal.beqPairs vs vs = true
  | [] => rfl
  | (_, a) :: as => by simp [JVal.beqPairs, JVal.beq_refl a, JVal.beqPairs_refl as]

end

/-- C7: for all Batches a, b, c: `len(a + b) = len(a) + len(b)`;
`(a + b).jobs` is `a.jobs` followed by `b.jobs` in order; and `+` is
associative. -/
theorem batch_add_spec (a c e : Batch) :
    (a.add c).jobs = a.jobs ++ c.jobs ∧
    (a.add c).jobs.length = a.jobs.length + c.jobs.length ∧
    (a.add c).add e = a.add (c.add e) := by
  refine ⟨rfl, by simp [Batch.add], ?_⟩
  simp [Batch.add, List.append_assoc]

/-- C8: for every Job, `to_dict(for_resubmit=True)` binds none of `job_id`,
`status_code`, `request_time`, `expiration_time`, `files`; always binds
`job_type`; and every key it binds is one of `name`, `job_parameters`,
`job_type`. -/
theorem to_dict_resubmit_keys (j : Job) :
    List.lookup "job_id" (j.to_dict true) = none ∧
    List.lookup "status_code" (j.to_dict true) = none ∧
    List.lookup "request_time" (j.to_dict true) = none ∧
    List.lookup "expiration_time" (j.to_dict true) = none ∧
    List.lookup "files" (j.to_dict true) = none ∧
    List.lookup "job_type" (j.to_dict true) = some (JVal.s j.job_type) ∧
    ∀ kv ∈ j.to_dict true,
      kv.1 = "name" ∨ kv.1 = "job_parameters" ∨ kv.1 = "job_type" := by
  cases hn : j.name <;> cases hp : j.job_parameters <;>
    simp [Job.to_dict, optEntry, hn, hp, List.lookup]

theorem toDigitChar_isDigit {n : Nat} (h : n < 10) : (toDigitChar n).isDigit = true := by
  interval_cases n <;> decide

theorem digitVal_toDigitChar {n : Nat} (h : n < 10) : digitVal (toDigitChar n) = n := by
  interval_cases n <;> decide

theorem parse2_pad2 {n : Nat} (h : n < 100) :
    parse2 (toDigitChar (n / 10 % 10)) (toDigitChar (n % 10)) = some n := by
  have h1 : n / 10 % 10 < 10 := Nat.mod_lt _ (by norm_num)
  have h2 : n % 10 < 10 := Nat.mod_lt _ (by norm_num)
  rw [parse2, if_pos ⟨toDigitChar_isDigit h1, toDigitChar_isDigit h2⟩,
    digitVal_toDigitChar h1, digitVal_toDigitChar h2]
  congr 1
  omega

theorem parse4_pad4 {n : Nat} (h : n < 10000) :
    parse4 (toDigitChar (n / 1000 % 10)) (toDigitChar (n / 100 % 10))
      (toDigitChar (n / 10 % 10)) (toDigitChar (n % 10)) = some n := by
  have h1 : n / 1000 % 10 < 10 := Nat.mod_lt _ (by norm_num)
  have h2 : n / 100 % 10 < 10 := Nat.mod_lt _ (by norm_num)
  have h3 : n / 10 % 10 < 10 := Nat.mod_lt _ (by norm_num)
  have h4 : n % 10 < 10 := Nat.mod_lt _ (by norm_num)
  rw [parse4, if_pos ⟨toDigitChar_isDigit h1, toDigitChar_isDigit h2,
    toDigitChar_isDigit h3, toDigitChar_isDigit h4⟩,
    digitVal_toDigitChar h1, digitVal_toDigitChar h2,
    digitVal_toDigitChar h3, digitVal_toDigitChar h4]
  congr 1
  omega

theorem parseSign_if (sg : Bool) : parseSign (if sg then '+' else '-') = some sg := by
  cases sg <;> decide

theorem parse_date_isoformat (dt : DateTime) (h : dt.wf) :
    parse_date dt.isoformat = some dt := by
  obtain ⟨y, mo, da, ho, mi, se, sgn, th, tm⟩ := dt
  have hy : y ≤ 9999 := h.1
  have hmo1 : 1 ≤ mo := h.2.1
  have hmo2 : mo ≤ 12 := h.2.2.1
  have hda1 : 1 ≤ da := h.2.2.2.1
  have hda2 : da ≤ 31 := h.2.2.2.2.1
  have hho : ho ≤ 23 := h.2.2.2.2.2.1
  have hmi : mi ≤ 59 := h.2.2.2.2.2.2.1
  have hse : se ≤ 59 := h.2.2.2.2.2.2.2.1
  have hth : th ≤ 23 := h.2.2.2.2.2.2.2.2.1
  have htm : tm ≤ 59 := h.2.2.2.2.2.2.2.2.2
  simp only [DateTime.isoformat, pad4, pad2, List.cons_append, List.nil_append]
  simp only [parse_date]
  rw [if_pos (by decide)]
  rw [parseFields, parse4_pad4 (by omega), parse2_pad2 (by omega),
    parse2_pad2 (by omega), parse2_pad2 (by omega), parse2_pad2 (by omega),
    parse2_pad2 (by omega), parseSign_if, parse2_pad2 (by omega),
    parse2_pad2 (by omega)]
  simp [hmo1, hmo2, hda1, hda2, hho, hmi, hse, hth, htm]

theorem lookup_of_mem {d : Dict} (hnd : (d.map Prod.fst).Nodup) {k : String} {v : JVal}
    (hm : (k, v) ∈ d) : List.lookup k d = some v := by
  induction d with
  | nil => simp at hm
  | cons hd tl ih =>
    obtain ⟨hk, hv⟩ := hd
    simp only [List.map_cons, List.nodup_cons] at hnd
    rcases List.mem_cons.mp hm with heq | hmem
    · rw [Prod.mk.injEq] at heq
      simp [List.lookup, heq.1, heq.2]
    · have hne : (k == hk) = false := by
        rw [beq_eq_false_iff_ne]
        intro hcontra
        subst hcontra
        exact hnd.1 (List.mem_map.mpr ⟨(k, v), hmem, rfl⟩)
      simp only [List.lookup, hne]
      exact ih hnd.2 hmem

theorem optGet_eq {d : Dict} {k : String} {v : JVal}
    (hl : List.lookup k d = some v) (hne : v ≠ JVal.null) : optGet d k = some v := by
  cases v <;> simp_all [optGet]

theorem isoformat_len (dt : DateTime) : dt.isoformat.length = 25 := by
  simp [DateTime.isoformat, String.length, pad4, pad2]

theorem isoformat_truthy (dt : DateTime) : (JVal.s dt.isoformat).truthy = true := by
  rw [show (JVal.s dt.isoformat).truthy = !(dt.isoformat == "") from rfl]
  have hne : dt.isoformat ≠ "" := by
    intro hc
    have h2 := isoformat_len dt
    rw [hc] at h2
    simp at h2
  simp [hne]

theorem from_dict_full
    {d : Dict} {jt jid sc uid : String} {rt ed : DateTime}
    {nv pv fv lv bv tv : JVal}
    (hjid : List.lookup "job_id" d = some (JVal.s jid))
    (hjt : List.lookup "job_type" d = some (JVal.s jt))
    (hrt : List.lookup "request_time" d = some (JVal.s rt.isoformat))
    (hsc : List.lookup "status_code" d = some (JVal.s sc))
    (huid : List.lookup "user_id" d = some (JVal.s uid))
    (hnv : List.lookup "name" d = some nv) (hnv' : nv ≠ JVal.null)
    (hpv : List.lookup "job_parameters" d = some pv) (hpv' : pv ≠ JVal.null)
    (hfv : List.lookup "files" d = some fv) (hfv' : fv ≠ JVal.null)
    (hlv : List.lookup "logs" d = some lv) (hlv' : lv ≠ JVal.null)
    (hbv : List.lookup "browse_images" d = some bv) (hbv' : bv ≠ JVal.null)
    (htv : List.lookup "thumbnail_images" d = some tv) (htv' : tv ≠ JVal.null)
    (hed : List.lookup "expiration_time" d = some (JVal.s ed.isoformat))
    (hrtwf : rt.wf) (hedwf : ed.wf) :
    Job.from_dict d = some (Job.mk jid jt rt sc uid (some nv) (some pv) (some fv)
      (some lv) (some bv) (some tv) (some ed)) := by
  simp [Job.from_dict, hed, isoformat_truthy, parse_date_isoformat ed hedwf,
    reqString, hjt, hjid, hrt, parse_date_isoformat rt hrtwf, hsc, huid,
    optGet_eq hnv hnv', optGet_eq hpv hpv', optGet_eq hfv hfv',
    optGet_eq hlv hlv', optGet_eq hbv hbv', optGet_eq htv htv']

/-- C5: for every well-formed full job record (all twelve fields present
and non-null, no duplicate keys, timestamps canonical ISO-8601 strings at
second precision with an in-range offset-carrying datetime),
`Job.from_dict(j).to_dict()` succeeds and equals `j` as a Python dict. -/
theorem from_dict_to_dict_roundtrip
    (d : Dict) (jt jid sc uid : String) (rt ed : DateTime) (nv pv fv lv bv tv : JVal)
    (hnd : (d.map Prod.fst).Nodup)
    (hkeys : ∀ kv ∈ d, kv.1 ∈ ["job_id", "job_type", "request_time", "status_code",
      "user_id", "name", "job_parameters", "files", "logs", "browse_images",
      "thumbnail_images", "expiration_time"])
    (hjid : List.lookup "job_id" d = some (JVal.s jid))
    (hjt : List.lookup "job_type" d = some (JVal.s jt))
    (hrt : List.lookup "request_time" d = some (JVal.s rt.isoformat))
    (hsc : List.lookup "status_code" d = some (JVal.s sc))
    (huid : List.lookup "user_id" d = some (JVal.s uid))
    (hnv : List.lookup "name" d = some nv) (hnv' : nv ≠ JVal.null)
    (hpv : List.lookup "job_parameters" d = some pv) (hpv' : pv ≠ JVal.null)
    (hfv : List.lookup "files" d = some fv) (hfv' : fv ≠ JVal.null)
    (hlv : List.lookup "logs" d = some lv) (hlv' : lv ≠ JVal.null)
    (hbv : List.lookup "browse_images" d = some bv) (hbv' : bv ≠ JVal.null)
    (htv : List.lookup "thumbnail_images" d = some tv) (htv' : tv ≠ JVal.null)
    (hed : List.lookup "expiration_time" d = some (JVal.s ed.isoformat))
    (hrtwf : rt.wf) (hedwf : ed.wf) :
    roundTrips d = true := by
  simp only [roundTrips, from_dict_full hjid hjt hrt hsc huid hnv hnv' hpv hpv' hfv hfv'
    hlv hlv' hbv hbv' htv htv' hed hrtwf hedwf]
  rw [dictEqv]
  rw [Bool.and_eq_true]
  constructor
  · simp [Job.to_dict, optEntry, hjid, hjt, hrt, hsc, huid, hnv, hpv, hfv, hlv,
      hbv, htv, hed, JVal.beq, JVal.beq_refl]
  · rw [List.all_eq_true]
    intro kv hkv
    obtain ⟨k, v⟩ := kv
    have hlk := lookup_of_mem hnd hkv
    have hmem := hkeys (k, v) hkv
    simp only [List.mem_cons, List.not_mem_nil, or_false] at hmem
    rcases hmem with h | h | h | h | h | h | h | h | h | h | h | h <;> subst h
    · rw [hjid] at hlk
      injection hlk with hlk
      subst hlk
      simp [Job.to_dict, optEntry, List.lookup, JVal.beq]
    · rw [hjt] at hlk
      injection hlk with hlk
      subst hlk
      simp [Job.to_dict, optEntry, List.lookup, JVal.beq]
    · rw [hrt] at hlk
      injection hlk with hlk
      subst hlk
      simp [Job.to_dict, optEntry, List.lookup, JVal.beq]
    · rw [hsc] at hlk
      injection hlk with hlk
      subst hlk
      simp [Job.to_dict, optEntry, List.lookup, JVal.beq]
    · rw [huid] at hlk
      injection hlk with hlk
      subst hlk
      simp [Job.to_dict, optEntry, List.lookup, JVal.beq]
    · rw [hnv] at hlk
      injection hlk with hlk
      subst hlk
      simp [Job.to_dict, optEntry, List.lookup, JVal.beq_refl]
    · rw [hpv] at hlk
      injection hlk with hlk
      subst hlk
      simp [Job.to_dict, optEntry, List.lookup, JVal.beq_refl]
    · rw [hfv] at hlk
      injection hlk with hlk
      subst hlk
      simp [Job.to_dict, optEntry, List.lookup, JVal.beq_refl]
    · rw [hlv] at hlk
      injection hlk with hlk
      subst hlk
      simp [Job.to_dict, optEntry, List.lookup, JVal.beq_refl]
    · rw [hbv] at hlk
      injection hlk with hlk
      subst hlk
      simp [Job.to_dict, optEntry, List.lookup, JVal.beq_refl]
    · rw [htv] at hlk
      injection hlk with hlk
      subst hlk
      simp [Job.to_dict, optEntry, List.lookup, JVal.beq_refl]
    · rw [hed] at hlk
      injection hlk with hlk
      subst hlk
      simp [Job.to_dict, optEntry, List.lookup, JVal.beq]

/-- C3: for a Job satisfying the data-model invariant ("expiration_time is
defined if and only if status_code == SUCCEEDED"), `expired()` raises the
typed precondition error whenever `status_code` is not SUCCEEDED, and for
every Job with an expiration time it returns whether the current UTC
instant is at or past that expiration time. -/
theorem expired_spec (j : Job) (now : DateTime)
    (hinv : j.expiration_time = none ↔ j.status_code ≠ "SUCCEEDED") :
    (j.status_code ≠ "SUCCEEDED" →
      j.expired now = .error (.hyp3SDKError "Only SUCCEEDED jobs have an expiration time")) ∧
    (∀ t, j.expiration_time = some t →
      j.expired now = .ok (decide (t.toEpochSec ≤ now.toEpochSec))) := by
  constructor
  · intro hs
    rw [Job.expired, hinv.mpr hs]
  · intro t ht
    rw [Job.expired, ht]

theorem anyExpiredAux_spec (now : DateTime) (jobs : List Job)
    (hinv : ∀ j ∈ jobs, j.expiration_time = none ↔ j.succeeded = false) :
    (∃ r : Bool, anyExpiredAux now jobs = .ok r) ∧
    (anyExpiredAux now jobs = .ok true ↔
      ∃ j ∈ jobs, j.succeeded = true ∧ j.expired now = Except.ok true) := by
  induction jobs with
  | nil =>
    refine ⟨⟨false, rfl⟩, ?_⟩
    simp [anyExpiredAux]
  | cons j rest ih =>
    obtain ⟨⟨r, hr⟩, hiff⟩ := ih (fun x hx => hinv x (List.mem_cons_of_mem j hx))
    cases ht : j.expiration_time with
    | none =>
      have hexp : j.expired now =
          .error (.hyp3SDKError "Only SUCCEEDED jobs have an expiration time") := by
        rw [Job.expired, ht]
      have hstep : anyExpiredAux now (j :: rest) = anyExpiredAux now rest := by
        simp [anyExpiredAux, hexp, PyErr.isSDKError]
      constructor
      · exact ⟨r, by rw [hstep]; exact hr⟩
      · rw [hstep, hiff]
        constructor
        · rintro ⟨x, hx, hsx, hex⟩
          exact ⟨x, List.mem_cons_of_mem j hx, hsx, hex⟩
        · rintro ⟨x, hx, hsx, hex⟩
          rcases List.mem_cons.mp hx with hxe | hxr
          · subst hxe
            rw [hexp] at hex
            simp at hex
          · exact ⟨x, hxr, hsx, hex⟩
    | some t =>
      have hsucc : j.succeeded = true := by
        cases hs : j.succeeded
        · have hnone := (hinv j (List.mem_cons_self j rest)).mpr hs
          rw [ht] at hnone
          exact Option.noConfusion hnone
        · rfl
      have hexp : j.expired now = .ok (decide (t.toEpochSec ≤ now.toEpochSec)) := by
        rw [Job.expired, ht]
      cases hd : decide (t.toEpochSec ≤ now.toEpochSec) with
      | true =>
        have hstep : anyExpiredAux now (j :: rest) = .ok true := by
          rw [hd] at hexp
          simp [anyExpiredAux, hexp]
        refine ⟨⟨true, hstep⟩, ?_⟩
        rw [hstep]
        simp only [true_iff]
        exact ⟨j, List.mem_cons_self j rest, hsucc, by rw [hexp, hd]⟩
      | false =>
        have hstep : anyExpiredAux now (j :: rest) = anyExpiredAux now rest := by
          rw [hd] at hexp
          simp [anyExpiredAux, hexp]
        refine ⟨⟨r, by rw [hstep]; exact hr⟩, ?_⟩
        rw [hstep, hiff]
        constructor
        · rintro ⟨x, hx, hsx, hex⟩
          exact ⟨x, List.mem_cons_of_mem j hx, hsx, hex⟩
        · rintro ⟨x, hx, hsx, hex⟩
          rcases List.mem_cons.mp hx with hxe | hxr
          · subst hxe
            rw [hexp, hd] at hex
            simp at hex
          · exact ⟨x, hxr, hsx, hex⟩

theorem filterJobsAux_raises (now : DateTime) (run fail : Bool) :
    ∀ jobs : List Job, (∃ j ∈ jobs, j.succeeded = true ∧ j.expiration_time = none) →
      filterJobsAux true run fail false now jobs =
        .error (.hyp3SDKError "Only SUCCEEDED jobs have an expiration time") := by
  intro jobs
  induction jobs with
  | nil => simp
  | cons j rest ih =>
    intro hbad
    rcases hbad with ⟨x, hx, hsx, hex⟩
    rcases List.mem_cons.mp hx with hxe | hxr
    · subst hxe
      simp [filterJobsAux, hsx, Job.expired, hex]
    · cases hs : j.succeeded with
      | true =>
        cases hexp : j.expiration_time with
        | none => simp [filterJobsAux, hs, Job.expired, hexp]
        | some t =>
          have hrec := ih ⟨x, hxr, hsx, hex⟩
          simp only [filterJobsAux, hs, Bool.true_and, if_true, Job.expired, hexp, hrec]
          split <;> simp [Except.map]
      | false =>
        have hrec := ih ⟨x, hxr, hsx, hex⟩
        simp only [filterJobsAux, hs, Bool.false_and, Bool.false_eq_true, if_false]
        split <;> simp [hrec, Except.map]

theorem batchDownloadAux_spec (now : DateTime) (dl : String → Bool) (location : String)
    (isdir create : Bool) (jobs : List Job)
    (h : ∀ j ∈ jobs, ∀ e, j.download_files now dl location isdir create = .error e →
      e.isSDKError = true) :
    batchDownloadAux now dl location isdir create jobs =
      (.ok (jobs.map (fun j =>
          match j.download_files now dl location isdir create with
          | .ok ps => ps
          | .error _ => [])).flatten,
       jobs.filterMap (fun j =>
          match j.download_files now dl location isdir create with
          | .ok _ => none
          | .error e =>
            some ("Warning: " ++ e.message ++ ". Skipping download for " ++ j.str ++ "."))) := by
  induction jobs with
  | nil => simp [batchDownloadAux]
  | cons j rest ih =>
    have ihr := ih (fun x hx e he => h x (List.mem_cons_of_mem j hx) e he)
    cases hd : j.download_files now dl location isdir create with
    | ok ps => simp [batchDownloadAux, hd, ihr, Except.map]
    | error e =>
      have hsdk := h j (List.mem_cons_self j rest) e hd
      simp [batchDownloadAux, hd, hsdk, ihr]

theorem watchAux_count {α : Type} (refresh : Nat → α) (isComplete : α → Bool)
    (descr : α → String) :
    ∀ (fuel i : Nat) (cur : α),
      (watchAux refresh isComplete descr cur i fuel).2 ≤ i + fuel := by
  intro fuel
  induction fuel with
  | zero =>
    intro i cur
    simp [watchAux]
  | succ m ih =>
    intro i cur
    rw [watchAux]
    cases hc : isComplete (refresh i) with
    | true =>
      simp only [hc, if_true]
      omega
    | false =>
      simp only [hc, Bool.false_eq_true, if_false]
      have := ih (i + 1) (refresh i)
      omega

theorem watchAux_timeout {α : Type} (refresh : Nat → α) (isComplete : α → Bool)
    (descr : α → String) :
    ∀ (fuel i : Nat) (cur : α),
      (∀ k, i ≤ k → k < i + fuel → isComplete (refresh k) = false) →
      watchAux refresh isComplete descr cur i fuel =
        (.error (.hyp3Error ("Timeout occurred while waiting for " ++
          descr (if fuel = 0 then cur else refresh (i + fuel - 1)))), i + fuel) := by
  intro fuel
  induction fuel with
  | zero =>
    intro i cur _
    simp [watchAux]
  | succ m ih =>
    intro i cur hk
    have hc : isComplete (refresh i) = false := hk i (Nat.le_refl i) (by omega)
    rw [watchAux]
    simp only [hc, Bool.false_eq_true, if_false]
    rw [ih (i + 1) (refresh i) (fun k h1 h2 => hk k (by omega) (by omega))]
    cases m with
    | zero => simp
    | succ m' =>
      have h1 : ¬(m' + 1 = 0) := by omega
      have h2 : ¬(m' + 1 + 1 = 0) := by omega
      simp only [if_neg h1, if_neg h2]
      have h3 : i + 1 + (m' + 1) - 1 = i + (m' + 1 + 1) - 1 := by omega
      have h4 : i + 1 + (m' + 1) = i + (m' + 1 + 1) := by omega
      rw [h3, h4]

theorem watchAux_first_complete {α : Type} (refresh : Nat → α) (isComplete : α → Bool)
    (descr : α → String) :
    ∀ (fuel i : Nat) (cur : α) (m : Nat), i ≤ m → m < i + fuel →
      isComplete (refresh m) = true →
      (∀ k, i ≤ k → k < m → isComplete (refresh k) = false) →
      watchAux refresh isComplete descr cur i fuel = (.ok (refresh m), m + 1) := by
  intro fuel
  induction fuel with
  | zero =>
    intro i cur m h1 h2
    omega
  | succ n ih =>
    intro i cur m h1 h2 hm hk
    rw [watchAux]
    cases hc : isComplete (refresh i) with
    | true =>
      have hmi : m = i := by
        by_contra hne
        have : isComplete (refresh i) = false := hk i (Nat.le_refl i) (by omega)
        rw [hc] at this
        exact Bool.noConfusion this
      subst hmi
      simp [hc]
    | false =>
      have hmi : i < m := by
        rcases Nat.lt_or_ge i m with h | h
        · exact h
        · have : m = i := by omega
          subst this
          rw [hm] at hc
          exact Bool.noConfusion hc
      simp only [hc, Bool.false_eq_true, if_false]
      exact ih (i + 1) (refresh i) m (by omega) (by omega) hm
        (fun k ha hb => hk k (by omega) hb)

theorem updateJobsAux_ok (server : String → Except PyErr Dict) (f : Job → Job) :
    ∀ (jobs : List Job) (acc : Batch) (log : List String),
      (∀ j ∈ jobs, updateJob server j = .ok (f j)) →
      updateJobsAux server jobs acc log =
        (.ok (Batch.mk (acc.jobs ++ jobs.map f)), log ++ jobs.map Job.job_id) := by
  intro jobs
  induction jobs with
  | nil =>
    intro acc log _
    simp [updateJobsAux]
  | cons j rest ih =>
    intro acc log h
    have hj := h j (List.mem_cons_self j rest)
    rw [updateJobsAux]
    simp only [hj]
    rw [ih (acc.addJob (f j)) (log ++ [j.job_id])
      (fun x hx => h x (List.mem_cons_of_mem j hx))]
    simp [Batch.addJob]

theorem updateJobsAux_error (server : String → Except PyErr Dict) (f : Job → Job)
    (j : Job) (e : PyErr) :
    ∀ (pre post : List Job) (acc : Batch) (log : List String),
      (∀ p ∈ pre, updateJob server p = .ok (f p)) →
      updateJob server j = .error e →
      updateJobsAux server (pre ++ j :: post) acc log =
        (.error e, log ++ pre.map Job.job_id ++ [j.job_id]) := by
  intro pre
  induction pre with
  | nil =>
    intro post acc log _ hj
    rw [List.nil_append, updateJobsAux]
    simp [hj]
  | cons p rest ih =>
    intro post acc log hpre hj
    have hp := hpre p (List.mem_cons_self p rest)
    rw [List.cons_append, updateJobsAux]
    simp only [hp]
    rw [ih post (acc.addJob (f p)) (log ++ [p.job_id])
      (fun x hx => hpre x (List.mem_cons_of_mem p hx)) hj]
    simp

/-- C9: `update_jobs` on a Batch issues one PATCH per contained job in
order and, when they all succeed, returns the Batch of updated jobs in
order; the first server error is raised immediately, the remaining jobs are
not PATCHed, and nothing is silently skipped. -/
theorem update_jobs_spec (server : String → Except PyErr Dict) (b : Batch) (f : Job → Job) :
    ((∀ j ∈ b.jobs, updateJob server j = .ok (f j)) →
      HyP3.update_jobs server b = (.ok (Batch.mk (b.jobs.map f)), b.jobs.map Job.job_id)) ∧
    (∀ pre j post e, b.jobs = pre ++ j :: post →
      (∀ p ∈ pre, updateJob server p = .ok (f p)) →
      updateJob server j = .error e →
      HyP3.update_jobs server b = (.error e, pre.map Job.job_id ++ [j.job_id])) := by
  constructor
  · intro h
    rw [HyP3.update_jobs, updateJobsAux_ok server f b.jobs (Batch.mk []) [] h]
    simp
  · intro pre j post e hsplit hpre hj
    rw [HyP3.update_jobs, hsplit, updateJobsAux_error server f j e pre post (Batch.mk []) [] hpre hj]
    simp

/-- C1: `Batch.download_files` concatenates, in batch order, the per-job
results of the jobs that download successfully; a job failing with the
SDK's typed error (for example not-succeeded or expired, shown typed in the
second and third conjuncts) is skipped with a warning identifying that job,
and never aborts the remaining downloads. -/
theorem batch_download_partial_failure (b : Batch) (now : DateTime) (dl : String → Bool)
    (location : String) (isdir create : Bool)
    (h : ∀ j ∈ b.jobs, ∀ e, j.download_files now dl location isdir create = .error e →
      e.isSDKError = true) :
    b.download_files now dl location isdir create =
      (.ok (b.jobs.map (fun j =>
          match j.download_files now dl location isdir create with
          | .ok ps => ps
          | .error _ => [])).flatten,
       b.jobs.filterMap (fun j =>
          match j.download_files now dl location isdir create with
          | .ok _ => none
          | .error e =>
            some ("Warning: " ++ e.message ++ ". Skipping download for " ++ j.str ++ "."))) ∧
    (∀ j ∈ b.jobs, j.succeeded = false →
      j.download_files now dl location isdir create =
        .error (.hyp3SDKError ("Only succeeded jobs can be downloaded; job is " ++
          j.status_code ++ "."))) ∧
    (∀ j ∈ b.jobs, ∀ t, j.succeeded = true → j.expiration_time = some t →
      t.toEpochSec ≤ now.toEpochSec →
      j.download_files now dl location isdir create =
        .error (.hyp3SDKError ("Expired jobs cannot be downloaded; job expired " ++
          t.isoformat ++ "."))) := by
  refine ⟨batchDownloadAux_spec now dl location isdir create b.jobs h, ?_, ?_⟩
  · intro j _ hs
    simp [Job.download_files, hs]
  · intro j _ t hs ht hle
    simp [Job.download_files, hs, ht, hle]

/-- C2: for positive `timeout` and `interval`, `watch` performs at most
`ceil(timeout / interval)` refresh iterations; it returns the refreshed Job
or Batch of the first iteration whose result is complete, and otherwise
raises `HyP3Error` naming the watched object; a Batch is complete exactly
when every contained job is complete. -/
theorem watch_spec (rj : Nat → Job) (j0 : Job) (rb : Nat → Batch) (b0 : Batch)
    (timeout interval : Nat) (ht : 0 < timeout) (hv : 0 < interval) :
    1 ≤ iterationsUntilTimeout timeout interval ∧
    (HyP3.watch_job rj j0 timeout interval).2 ≤ iterationsUntilTimeout timeout interval ∧
    (∀ m, m < iterationsUntilTimeout timeout interval → (rj m).complete = true →
      (∀ k, k < m → (rj k).complete = false) →
      HyP3.watch_job rj j0 timeout interval = (.ok (rj m), m + 1)) ∧
    ((∀ k, k < iterationsUntilTimeout timeout interval → (rj k).complete = false) →
      HyP3.watch_job rj j0 timeout interval =
        (.error (.hyp3Error ("Timeout occurred while waiting for " ++
          (rj (iterationsUntilTimeout timeout interval - 1)).str)),
         iterationsUntilTimeout timeout interval)) ∧
    (HyP3.watch_batch rb b0 timeout interval).2 ≤ iterationsUntilTimeout timeout interval ∧
    (∀ m, m < iterationsUntilTimeout timeout interval → (rb m).complete = true →
      (∀ k, k < m → (rb k).complete = false) →
      HyP3.watch_batch rb b0 timeout interval = (.ok (rb m), m + 1)) ∧
    ((∀ k, k < iterationsUntilTimeout timeout interval → (rb k).complete = false) →
      HyP3.watch_batch rb b0 timeout interval =
        (.error (.hyp3Error ("Timeout occurred while waiting for " ++
          (rb (iterationsUntilTimeout timeout interval - 1)).str)),
         iterationsUntilTimeout timeout interval)) ∧
    (∀ b : Batch, b.complete = b.jobs.all Job.complete) := by
  have hn : 1 ≤ iterationsUntilTimeout timeout interval := by
    rw [iterationsUntilTimeout, Nat.one_le_div_iff hv]
    omega
  refine ⟨hn, ?_, ?_, ?_, ?_, ?_, ?_, fun _ => rfl⟩
  · have := watchAux_count rj Job.complete Job.str
      (iterationsUntilTimeout timeout interval) 0 j0
    simpa [HyP3.watch_job] using this
  · intro m hm hc hk
    exact watchAux_first_complete rj Job.complete Job.str
      (iterationsUntilTimeout timeout interval) 0 j0 m (Nat.zero_le m) (by omega) hc
      (fun k _ hb => hk k hb)
  · intro hk
    have := watchAux_timeout rj Job.complete Job.str
      (iterationsUntilTimeout timeout interval) 0 j0 (fun k _ hb => hk k (by omega))
    rw [HyP3.watch_job, this]
    rw [if_neg (by omega)]
    simp
  · have := watchAux_count rb Batch.complete Batch.str
      (iterationsUntilTimeout timeout interval) 0 b0
    simpa [HyP3.watch_batch] using this
  · intro m hm hc hk
    exact watchAux_first_complete rb Batch.complete Batch.str
      (iterationsUntilTimeout timeout interval) 0 b0 m (Nat.zero_le m) (by omega) hc
      (fun k _ hb => hk k hb)
  · intro hk
    have := watchAux_timeout rb Batch.complete Batch.str
      (iterationsUntilTimeout timeout interval) 0 b0 (fun k _ hb => hk k (by omega))
    rw [HyP3.watch_batch, this]
    rw [if_neg (by omega)]
    simp

/-- C6: under the data-model invariant (expiration time present exactly for
SUCCEEDED jobs), `any_expired()` never raises, and returns true exactly
when at least one contained job is both succeeded and expired; jobs lacking
an expiration time are skipped by the iff (their `expired()` is an error,
never `ok true`). -/
theorem any_expired_spec (b : Batch) (now : DateTime)
    (hinv : ∀ j ∈ b.jobs, j.expiration_time = none ↔ j.succeeded = false) :
    (∃ r : Bool, b.any_expired now = .ok r) ∧
    (b.any_expired now = .ok true ↔
      ∃ j ∈ b.jobs, j.succeeded = true ∧ j.expired now = Except.ok true) :=
  anyExpiredAux_spec now b.jobs hinv

/-- C10: a Batch containing a succeeded Job with no expiration time makes
`filter_jobs(include_expired=False)` (with the default `succeeded=True`)
raise the expiry precondition error instead of returning a filtered Batch:
unlike `any_expired`, `filter_jobs` does not catch `Job.expired`'s error. -/
theorem filter_jobs_raises_on_missing_expiration (b : Batch) (run fail : Bool)
    (now : DateTime)
    (hbad : ∃ j ∈ b.jobs, j.succeeded = true ∧ j.expiration_time = none) :
    b.filter_jobs true run fail false now =
      .error (.hyp3SDKError "Only SUCCEEDED jobs have an expiration time") := by
  rw [Batch.filter_jobs, filterJobsAux_raises now run fail b.jobs hbad]
  rfl

/-- C4: no client-side name-length validation exists on the submission
path: a prepared autoRIFT job with a 21-character name keeps that name, and
`submit_prepared_jobs` places it unchanged into the POST payload instead of
raising a validation error (the behaviour `tests/test_job.py` expects). -/
theorem submit_no_name_validation :
    ("abcdefghijklmnopqrstu" : String).length = 21 ∧
    List.lookup "name" (HyP3.prepare_autorift_job "g1" "g2" (some "abcdefghijklmnopqrstu")) =
      some (JVal.s "abcdefghijklmnopqrstu") ∧
    HyP3.submit_payload [HyP3.prepare_autorift_job "g1" "g2" (some "abcdefghijklmnopqrstu")] =
      [("jobs", JVal.l [JVal.d (HyP3.prepare_autorift_job "g1" "g2"
        (some "abcdefghijklmnopqrstu"))])] := by
  refine ⟨by decide, ?_, rfl⟩
  simp [HyP3.prepare_autorift_job, List.lookup]

theorem batch_download_partial_failure_witness :
    (Batch.mk [jobOkW, jobRunW, jobExpW]).download_files nowW dlAllW "out" true true =
      (.ok ["out/f1.zip"],
       ["Warning: Only succeeded jobs can be downloaded; job is RUNNING.. Skipping download for HyP3 RTC_GAMMA job j2.",
        "Warning: Expired jobs cannot be downloaded; job expired 2020-10-07T00:00:00+00:00.. Skipping download for HyP3 RTC_GAMMA job j3."]) := by
  have h := (batch_download_partial_failure (Batch.mk [jobOkW, jobRunW, jobExpW]) nowW dlAllW
    "out" true true ?_).1
  · rw [h]
    rfl
  · intro j hj e he
    rcases List.mem_cons.mp hj with h1 | hj2
    · subst h1
      rw [show jobOkW.download_files nowW dlAllW "out" true true =
        .ok ["out/f1.zip"] from rfl] at he
      exact Except.noConfusion he
    rcases List.mem_cons.mp hj2 with h2 | hj3
    · subst h2
      rw [show jobRunW.download_files nowW dlAllW "out" true true =
        .error (.hyp3SDKError "Only succeeded jobs can be downloaded; job is RUNNING.")
        from rfl] at he
      injection he with h'
      subst h'
      rfl
    rcases List.mem_cons.mp hj3 with h3 | hj4
    · subst h3
      rw [show jobExpW.download_files nowW dlAllW "out" true true =
        .error (.hyp3SDKError
          "Expired jobs cannot be downloaded; job expired 2020-10-07T00:00:00+00:00.")
        from rfl] at he
      injection he with h'
      subst h'
      rfl
    · exact absurd hj4 (List.not_mem_nil j)

theorem watch_spec_witness : HyP3.watch_job refreshW jobRunW 3 2 = (.ok jobOkW, 2) := by
  have h := (watch_spec refreshW jobRunW (fun _ => Batch.mk []) (Batch.mk []) 3 2
    (by decide) (by decide)).2.2.1 1 (by decide) (by decide) ?_
  · rw [h]
    rfl
  · intro k hk
    have hk0 : k = 0 := by omega
    subst hk0
    decide

theorem expired_spec_witness :
    jobRunW.expired nowW =
      .error (.hyp3SDKError "Only SUCCEEDED jobs have an expiration time") :=
  (expired_spec jobRunW nowW (by decide)).1 (by decide)

theorem from_dict_to_dict_roundtrip_witness : roundTrips recW = true :=
  from_dict_to_dict_roundtrip recW "RTC_GAMMA" "j1" "SUCCEEDED" "user" rtW edW
    (JVal.s "myname") (JVal.d [("granules", JVal.l [JVal.s "g1"])]) (JVal.l [])
    (JVal.l []) (JVal.l []) (JVal.l [])
    (by decide) (by decide)
    rfl rfl rfl rfl rfl
    rfl (by intro h; exact JVal.noConfusion h)
    rfl (by intro h; exact JVal.noConfusion h)
    rfl (by intro h; exact JVal.noConfusion h)
    rfl (by intro h; exact JVal.noConfusion h)
    rfl (by intro h; exact JVal.noConfusion h)
    rfl (by intro h; exact JVal.noConfusion h)
    rfl (by decide) (by decide)

theorem any_expired_spec_witness :
    (Batch.mk [jobRunW, jobExpW]).any_expired nowW = Except.ok true :=
  (any_expired_spec (Batch.mk [jobRunW, jobExpW]) nowW (by decide)).2.mpr
    ⟨jobExpW, List.mem_cons_of_mem _ (List.mem_cons_self _ _), by decide, by decide⟩

theorem update_jobs_spec_witness :
    HyP3.update_jobs serverW (Batch.mk [jobOkW]) = (.ok (Batch.mk [jobRecW]), ["j1"]) := by
  have h := (update_jobs_spec serverW (Batch.mk [jobOkW]) (fun _ => jobRecW)).1 ?_
  · rw [h]
    rfl
  · intro j hj
    rw [List.mem_singleton] at hj
    subst hj
    rfl

theorem filter_jobs_raises_witness :
    (Batch.mk [jobBadW]).filter_jobs true true false false nowW =
      .error (.hyp3SDKError "Only SUCCEEDED jobs have an expiration time") :=
  filter_jobs_raises_on_missing_expiration (Batch.mk [jobBadW]) true false nowW
    ⟨jobBadW, List.mem_cons_self _ _, by decide, rfl⟩
